import Mathlib

/-!
# Optimism simulators of hive: p2p consistency harness and the withdrawal balance check

Shallow embedding of

* `simulators/optimism/p2p/main.go`  (`runP2PTests`: peering loops, `waitLoop`,
  `checkCanon`, the load generator and consistency checker goroutines, the
  controller `select`);
* `simulators/optimism/l1ops/withdrawal_tests.go`  (`requireBetween`).

Conventions.  A Go `uint64` is a `Nat` below `2^64`; a Go `int` / `int64` is an
`Int` in `[-2^63, 2^63)` and arithmetic on it wraps explicitly (`wrapInt64`);
a `*big.Int` is an `Int`.  A Go `error` value is an `Option` (`none` is `nil`).
Remote calls are parameters of the model: what the sequencer or a replica
answers to a call is an input of the function that issues the call.
A counting loop `for i := a; i <= b; i++` whose body does not assign `i` is a
recursion over the list of the values `i` takes; the loops run up to the
replica count, far below `2^63`, so the counters do not wrap.  Log output
(`t.Log`, `t.Logf`) is left out.
-/

namespace Hive

/-! ## Machine integers -/

/-- Two's-complement reading of an integer on 64 bits: the value of a Go `int`
after an operation whose exact result is `z`, that is
`(z + 2^63) mod 2^64 - 2^63`. -/
def wrapInt64 (z : Int) : Int :=
  (z + 9223372036854775808) % 18446744073709551616 - 9223372036854775808

/-- Go conversion `int(u)` / `int64(u)` of a `uint64` value `u`. -/
def intOfUint64 (u : Nat) : Int := wrapInt64 (u : Int)

/-- Go subtraction `a - b` on `int`. -/
def intSub (a b : Int) : Int := wrapInt64 (a - b)

/-- Go subtraction `a - b` on `uint64`. -/
def uint64Sub (a b : Nat) : Nat := (a + 2 ^ 64 - b % 2 ^ 64) % 2 ^ 64

/-! ## Data model (`eth.BlockID`, `eth.L2BlockRef`, `driver.SyncStatus`) -/

/-- Go `eth.BlockID`: a 32-byte hash (read as a number) and a `uint64` height. -/
structure BlockID where
  Hash : Nat
  Number : Nat
deriving DecidableEq, Repr

/-- Go `eth.L2BlockRef`, restricted to the two fields the harness reads. -/
structure L2BlockRef where
  Hash : Nat
  Number : Nat
deriving DecidableEq, Repr

/-- Go `L2BlockRef.ID()`. -/
def L2BlockRef.ID (r : L2BlockRef) : BlockID := { Hash := r.Hash, Number := r.Number }

/-- Go `driver.SyncStatus`. -/
structure SyncStatus where
  CurrentL1 : BlockID
  HeadL1 : BlockID
  FinalizedL2 : L2BlockRef
  SafeL2 : L2BlockRef
  UnsafeL2 : L2BlockRef
deriving DecidableEq, Repr

/-- A block as returned by `ethclient.BlockByNumber`: `NumberU64()` and `Hash()`. -/
structure Block where
  NumberU64 : Nat
  Hash : Nat
deriving DecidableEq, Repr

/-- The errors that travel on `errCh`.  The first three are the `fmt.Errorf`
values built by `checkCanon`, with the arguments of the format string as
fields; `transport` is an error returned by a remote call and passed on
unchanged. -/
inductive HarnessError where
  /-- Text `replica %d: too far behind sequencer. seq head: %d, replica head: %d`. -/
  | tooFarBehind (i : Int) (seqHead : Nat) (replicaHead : Nat)
  /-- Text `replica %d: sequencer does not have block at height %d`. -/
  | missingBlock (i : Int) (height : Nat)
  /-- Text `replica %d: sequencer diverged, height %d does not match: sequencer: %s <> verifier: %s`. -/
  | diverged (i : Int) (height : Nat) (seqHash : Nat) (verifHash : Nat)
  /-- An error of a remote call. -/
  | transport (msg : String)
deriving DecidableEq, Repr

/-- The replica index printed in the error text, when there is one. -/
def HarnessError.replica : HarnessError → Option Int
  | .tooFarBehind i _ _ => some i
  | .missingBlock i _ => some i
  | .diverged i _ _ _ => some i
  | .transport _ => none

/-- The block heights printed in the error text. -/
def HarnessError.heights : HarnessError → List Nat
  | .tooFarBehind _ h r => [h, r]
  | .missingBlock _ h => [h]
  | .diverged _ h _ _ => [h]
  | .transport _ => []

/-- The block hashes printed in the error text. -/
def HarnessError.hashes : HarnessError → List Nat
  | .tooFarBehind _ _ _ => []
  | .missingBlock _ _ => []
  | .diverged _ _ s v => [s, v]
  | .transport _ => []

/-- Whether the error is the lag error of `checkCanon`. -/
def HarnessError.isLag : HarnessError → Bool
  | .tooFarBehind _ _ _ => true
  | _ => false

/-! ## Constants of `p2p/main.go` -/

/-- Go `const replicaCount = 2`. -/
def replicaCount : Nat := 2

/-- Go `const maxReplicaLag = 5`. -/
def maxReplicaLag : Int := 5

/-- The sequencer's execution client, `seqEthCl.BlockByNumber(ctx, number)`:
`none` as argument is Go `nil` (the latest block); the answer is the block or
an error. -/
abbrev BlockByNumber := Option Int → Except String Block

/-! ## `checkCanon` -/

/-- Go `checkCanon` (closure of `runP2PTests`); `head` is from the sequencer,
`id` from the replica. -/
def checkCanon (seqEthCl : BlockByNumber) (i : Int) (head : Nat) (id : BlockID) :
    Option HarnessError :=
  if intSub (intOfUint64 head) (intOfUint64 id.Number) > maxReplicaLag then
    some (.tooFarBehind i head id.Number)
  else
    match seqEthCl (some (intOfUint64 id.Number)) with
    | .error _ => some (.missingBlock i id.Number)
    | .ok bl =>
      if bl.Hash ≠ id.Hash then
        some (.diverged i id.Number bl.Hash id.Hash)
      else
        none

/-! ## The peering loops of `runP2PTests` -/

/-- A `p2pClient.ConnectPeer` call: node `initiator` is told to connect to the
peer address of node `target`. -/
structure ConnectCall where
  initiator : Nat
  target : Nat
deriving DecidableEq, Repr

/-- Result of the peering phase: the connect calls issued, in order, and whether
every `require.NoError` passed (`false`: the test was aborted at the last call
of the list). -/
structure PeeringResult where
  calls : List ConnectCall
  ok : Bool
deriving DecidableEq, Repr

/-- Inner loop `for j := 0; j <= replicaCount; j++` for a fixed `i`, over the
values of `j` still to visit.  `connectPeer i j` is the error returned by the
call (`none` is `nil`). -/
def peerInner (connectPeer : Nat → Nat → Option String) (i : Nat) : List Nat → PeeringResult
  | [] => { calls := [], ok := true }
  | j :: js =>
    if i = j then
      peerInner connectPeer i js
    else
      match connectPeer i j with
      | some _ => { calls := [⟨i, j⟩], ok := false }
      | none =>
        let r := peerInner connectPeer i js
        { calls := ⟨i, j⟩ :: r.calls, ok := r.ok }

/-- Outer loop `for i := 1; i <= replicaCount; i++`, over the values of `i` still
to visit; `n` is `replicaCount`. -/
def peerOuter (connectPeer : Nat → Nat → Option String) (n : Nat) : List Nat → PeeringResult
  | [] => { calls := [], ok := true }
  | i :: is =>
    let r := peerInner connectPeer i (List.range (n + 1))
    if r.ok then
      let r2 := peerOuter connectPeer n is
      { calls := r.calls ++ r2.calls, ok := r2.ok }
    else
      r

/-- The peering loops of `runP2PTests` for `replicaCount = n`. -/
def peerMesh (connectPeer : Nat → Nat → Option String) (n : Nat) : PeeringResult :=
  peerOuter connectPeer n (List.range' 1 n)

/-- The call list in the words of the specification: `(i, j)` for `i = 1..n` and
`j = 0..n` with `j ≠ i`, in that order. -/
def meshSpec (n : Nat) : List ConnectCall :=
  (List.range' 1 n).flatMap fun i =>
    ((List.range (n + 1)).filter fun j => decide (j ≠ i)).map fun j => ⟨i, j⟩

/-! ## `waitLoop` of `runP2PTests` -/

/-- What one `tick.C` iteration of `waitLoop` does to the loop. -/
inductive WaitOutcome where
  /-- The loop goes on: `continue`, or `ready` is false. -/
  | polling
  /-- Go `break waitLoop`. -/
  | converged
  /-- A `require.NoError` failed: the test is aborted. -/
  | failed
deriving DecidableEq, Repr

/-- Outcome of a tick and the replica indices whose `SyncStatus` was requested,
in order. -/
structure WaitTick where
  outcome : WaitOutcome
  queried : List Nat
deriving DecidableEq, Repr

/-- Loop `for i := 1; i <= replicaCount; i++` of `waitLoop`, over the values of
`i` still to visit.  The comparison is on `uint64`, as in the source. -/
def waitReplicas (seqHead : SyncStatus) (repRollupCl : Nat → Except String SyncStatus) :
    List Nat → WaitTick
  | [] => { outcome := .converged, queried := [] }
  | i :: is =>
    match repRollupCl i with
    | .error _ => { outcome := .failed, queried := [i] }
    | .ok repHead =>
      if uint64Sub seqHead.UnsafeL2.Number repHead.UnsafeL2.Number ≥ 2 then
        { outcome := .polling, queried := [i] }
      else
        let r := waitReplicas seqHead repRollupCl is
        { outcome := r.outcome, queried := i :: r.queried }

/-- The `case <-tick.C` branch of `waitLoop` for `replicaCount = n`:
`seqRollupCl` is the answer of the sequencer's `SyncStatus`, `repRollupCl i` the
answer of replica `i`. -/
def waitTick (n : Nat) (seqRollupCl : Except String SyncStatus)
    (repRollupCl : Nat → Except String SyncStatus) : WaitTick :=
  match seqRollupCl with
  | .error _ => { outcome := .failed, queried := [] }
  | .ok seqHead =>
    if seqHead.UnsafeL2.Number = seqHead.SafeL2.Number then
      { outcome := .polling, queried := [] }
    else
      waitReplicas seqHead repRollupCl (List.range' 1 n)

/-! ## The consistency checker goroutine -/

/-- What the nodes answer during one tick of the consistency checker. -/
structure Snapshot where
  /-- The sequencer's `BlockByNumber`. -/
  seqEthCl : BlockByNumber
  /-- Replica `i`: `getSyncStat(ctx, i)`. -/
  getSyncStat : Nat → Except String SyncStatus

/-- Body of the loop `for i := 1; i <= replicaCount; i++` of the checker for
one value of `i`: the error sent on `errCh`, if any. -/
def checkReplica (snap : Snapshot) (head : Block) (i : Nat) : Option HarnessError :=
  match snap.getSyncStat i with
  | .error e => some (.transport e)
  | .ok seqStat => checkCanon snap.seqEthCl (i : Int) head.NumberU64 seqStat.UnsafeL2.ID

/-- Loop `for i := 1; i <= replicaCount; i++` of the checker, over the values of
`i` still to visit: the error sent on `errCh`, if any; the first error ends
the loop. -/
def checkReplicas (snap : Snapshot) (head : Block) : List Nat → Option HarnessError
  | [] => none
  | i :: is =>
    match checkReplica snap head i with
    | some err => some err
    | none => checkReplicas snap head is

/-- The `case <-tick.C` branch of the checker for `replicaCount = n`: the error
sent on `errCh`, or `none` when the tick ends without an error. -/
def checkerTick (n : Nat) (snap : Snapshot) : Option HarnessError :=
  match snap.seqEthCl none with
  | .error e => some (.transport e)
  | .ok head => checkReplicas snap head (List.range' 1 n)

/-- The checker goroutine over successive ticks, one snapshot per tick, until
the first error: the error sent on `errCh`, or `none` when every tick passed. -/
def checkerRun (n : Nat) : List Snapshot → Option HarnessError
  | [] => none
  | snap :: rest =>
    match checkerTick n snap with
    | some err => some err
    | none => checkerRun n rest

/-! ## The load generator goroutine -/

/-- What the sequencer and the vault answer during one tick of the load
generator. -/
structure LoadEnv where
  /-- Go `seqEthCl.NonceAt(ctx, sender, nil)`. -/
  nonceAt : Except String Nat
  /-- Go `d.L2Vault.SignTransaction(sender, tx)`, for the transaction with this nonce. -/
  signTransaction : Nat → Option String
  /-- Go `seqEthCl.SendTransaction(ctx, tx)`. -/
  sendTransaction : Nat → Option String
  /-- Go `optimism.WaitReceiptOK(ctx, seqEthCl, tx.Hash())`. -/
  waitReceiptOK : Nat → Option String

/-- The `case <-tick.C` branch of the load generator: the error sent on `errCh`,
or `none` when the tick ends without an error. -/
def loadTick (env : LoadEnv) : Option HarnessError :=
  match env.nonceAt with
  | .error e => some (.transport e)
  | .ok nonce =>
    match env.signTransaction nonce with
    | some e => some (.transport e)
    | none =>
      match env.sendTransaction nonce with
      | some e => some (.transport e)
      | none =>
        match env.waitReceiptOK nonce with
        | some e => some (.transport e)
        | none => none

/-! ## The concurrent phase of `runP2PTests`: two goroutines, `errCh`, the controller -/

/-- Go `errCh := make(chan error, 20)`: the capacity of the channel. -/
def errChCap : Nat := 20

/-- The two goroutines that send on `errCh`. -/
inductive Task where
  | loadGen
  | checker
deriving DecidableEq, Repr

/-- Where a goroutine stands: in its `for`/`select` loop, stopped in a send
`errCh <- err` that found the buffer full, or returned. -/
inductive TaskStatus where
  | running
  | blocked (err : HarnessError)
  | done
deriving DecidableEq, Repr

/-- The terminal outcome of the run as decided by the controller `select`. -/
inductive Outcome where
  /-- The timer `time.NewTimer(time.Minute)` fired: the test passes. -/
  | success
  /-- Go `t.Fatalf("unhandled error: %v", err)`. -/
  | failure (err : HarnessError)
deriving DecidableEq, Repr

/-- State of the concurrent phase. -/
structure RunState where
  /-- Values buffered in `errCh`, oldest first. -/
  errCh : List HarnessError
  /-- Every completed send on `errCh`, oldest first, with its sender. -/
  sent : List (Task × HarnessError)
  /-- Status of the load generator goroutine. -/
  loadGen : TaskStatus
  /-- Status of the consistency checker goroutine. -/
  checker : TaskStatus
  /-- Number of `tick.C` iterations started by the load generator. -/
  loadTicks : Nat
  /-- Number of `tick.C` iterations started by the checker. -/
  checkerTicks : Nat
  /-- Whether `ctx` is done (cancelled or past its deadline). -/
  cancelled : Bool
  /-- Whether the controller `select` has returned. -/
  controllerDone : Bool
  /-- The outcomes recorded by the controller, oldest first. -/
  outcomes : List Outcome
deriving DecidableEq, Repr

/-- State when the two goroutines have just been started. -/
def RunState.init : RunState :=
  { errCh := [], sent := [], loadGen := .running, checker := .running,
    loadTicks := 0, checkerTicks := 0, cancelled := false,
    controllerDone := false, outcomes := [] }

/-- Status of a goroutine. -/
def RunState.status (s : RunState) : Task → TaskStatus
  | .loadGen => s.loadGen
  | .checker => s.checker

/-- Update of the status of a goroutine. -/
def RunState.setStatus (s : RunState) (t : Task) (st : TaskStatus) : RunState :=
  match t with
  | .loadGen => { s with loadGen := st }
  | .checker => { s with checker := st }

/-- The value `err` of goroutine `t` enters the buffer of `errCh`. -/
def RunState.enqueue (s : RunState) (t : Task) (err : HarnessError) : RunState :=
  { s with errCh := s.errCh ++ [err], sent := s.sent ++ [(t, err)] }

/-- Go `errCh <- err; return` executed by goroutine `t`: with room in the buffer
the value is queued and the goroutine returns, otherwise the goroutine stays
in the send. -/
def RunState.send (s : RunState) (t : Task) (err : HarnessError) : RunState :=
  if s.errCh.length < errChCap then
    (s.enqueue t err).setStatus t .done
  else
    s.setStatus t (.blocked err)

/-- The end of a `tick.C` iteration of goroutine `t` whose body produced
`result`: an error is sent and the goroutine returns, otherwise the loop goes
on. -/
def RunState.afterTick (s : RunState) (t : Task) (result : Option HarnessError) : RunState :=
  match result with
  | some err => s.send t err
  | none => s

/-- The events of the concurrent phase. -/
inductive Event where
  /-- The load generator takes `case <-tick.C` and the nodes answer as in `env`. -/
  | loadTick (env : LoadEnv)
  /-- The checker takes `case <-tick.C` and the nodes answer as in `snap`. -/
  | checkerTick (snap : Snapshot)
  /-- A goroutine takes `case <-ctx.Done()` and returns. -/
  | observeDone (t : Task)
  /-- A goroutine stopped in a send completes it. -/
  | resumeSend (t : Task)
  /-- The deadline of `ctx` (five minutes) passes. -/
  | deadline
  /-- The controller takes `case <-time.NewTimer(time.Minute).C`. -/
  | timer
  /-- The controller takes `case err := <-errCh`. -/
  | recv

/-- One step of the concurrent phase for `replicaCount = n`: the state after the
event, or `none` when the event cannot happen in this state. -/
def step (n : Nat) (ev : Event) (s : RunState) : Option RunState :=
  match ev with
  | .loadTick env =>
    if s.loadGen = .running then
      some (({ s with loadTicks := s.loadTicks + 1 }).afterTick .loadGen (loadTick env))
    else none
  | .checkerTick snap =>
    if s.checker = .running then
      some (({ s with checkerTicks := s.checkerTicks + 1 }).afterTick .checker (checkerTick n snap))
    else none
  | .observeDone t =>
    if s.status t = .running ∧ s.cancelled = true then some (s.setStatus t .done) else none
  | .resumeSend t =>
    match s.status t with
    | .blocked err => if s.errCh.length < errChCap then some (s.send t err) else none
    | _ => none
  | .deadline => some { s with cancelled := true }
  | .timer =>
    if s.controllerDone = false then
      some { s with controllerDone := true, cancelled := true,
                    outcomes := s.outcomes ++ [.success] }
    else none
  | .recv =>
    if s.controllerDone = false then
      match s.errCh with
      | [] => none
      | err :: rest =>
        some { s with errCh := rest, controllerDone := true, cancelled := true,
                      outcomes := s.outcomes ++ [.failure err] }
    else none

/-- An execution: the events happen one after the other from state `s`; `none`
when one of them cannot happen. -/
def run (n : Nat) : List Event → RunState → Option RunState
  | [], s => some s
  | ev :: evs, s =>
    match step n ev s with
    | some s1 => run n evs s1
    | none => none

/-- Number of `tick.C` iterations started by a goroutine. -/
def RunState.ticks (s : RunState) : Task → Nat
  | .loadGen => s.loadTicks
  | .checker => s.checkerTicks

/-- Number of completed sends on `errCh` by goroutine `t`. -/
def sentBy (s : RunState) (t : Task) : Nat :=
  s.sent.countP fun p => decide (p.1 = t)

/-- The values sent on `errCh`, oldest first. -/
def RunState.sentValues (s : RunState) : List HarnessError :=
  s.sent.map Prod.snd

/-- Invariant of the concurrent phase. -/
structure RunInv (s : RunState) : Prop where
  /-- No goroutine is stopped in a send. -/
  notBlocked : ∀ t e, s.status t ≠ .blocked e
  /-- A goroutine still in its loop has sent nothing. -/
  runningUnsent : ∀ t, s.status t = .running → sentBy s t = 0
  /-- A goroutine has sent at most one value. -/
  sentOnce : ∀ t, sentBy s t ≤ 1
  /-- The buffer holds only values that were sent. -/
  buffered : s.errCh.length ≤ s.sent.length
  /-- Until the controller decides, nothing is recorded and nothing was received. -/
  waiting : s.controllerDone = false → s.outcomes = [] ∧ s.errCh = s.sentValues
  /-- Once the controller has decided, one outcome is recorded: success, or the
  failure with the first value sent on `errCh`. -/
  decided : s.controllerDone = true →
    s.outcomes = [.success] ∨
      ∃ e rest, s.outcomes = [.failure e] ∧ s.sentValues = e :: rest

/-! ## `requireBetween` of `l1ops/withdrawal_tests.go` -/

/-- Go `x.Cmp(y)` on `*big.Int`. -/
def bigCmp (x y : Int) : Int := if x < y then -1 else if x = y then 0 else 1

/-- Go `requireBetween(t, x, rg)`: the two `require.True` conditions, in order. -/
def requireBetweenChecks (x rg : Int) : List Bool :=
  let top := x + rg
  let bot := x + (-rg)
  [decide (bigCmp x top = -1), decide (bigCmp x bot = 1)]

/-- Go `requireBetween(t, x, rg)`: whether the test goes on, that is both
`require.True` pass. -/
def requireBetween (x rg : Int) : Bool :=
  (requireBetweenChecks x rg).all id

/-- Go `big.NewInt(0.001*params.Ether)` with `params.Ether = 1e18` of go-ethereum. -/
def milliEther : Int := 10 ^ 15

/-- The last statement of `simpleWithdrawalTest`: the check on
`diff = endBalanceL1 - startBalanceL1`. -/
def withdrawalBalanceCheck (startBalanceL1 endBalanceL1 : Int) : Bool :=
  let diff := endBalanceL1 - startBalanceL1
  requireBetween diff milliEther

/-! ## Concrete scenarios -/

/-- Whether a result of `checkCanon` is the lag error. -/
def isLagResult (r : Option HarnessError) : Bool :=
  match r with
  | some e => e.isLag
  | none => false

/-- A sequencer with head 100 whose block at height 94 has hash 3 and whose
block at height 99 has hash 9; no other height is served. -/
def seqAt100 : BlockByNumber := fun number =>
  match number with
  | none => .ok { NumberU64 := 100, Hash := 1 }
  | some 94 => .ok { NumberU64 := 94, Hash := 3 }
  | some 95 => .ok { NumberU64 := 95, Hash := 4 }
  | some 99 => .ok { NumberU64 := 99, Hash := 9 }
  | some _ => .error "not found"

/-- A sync status whose unsafe and safe L2 heads have the given heights. -/
def statusAt (unsafeNumber safeNumber : Nat) : SyncStatus :=
  { CurrentL1 := { Hash := 0, Number := 0 }, HeadL1 := { Hash := 0, Number := 0 },
    FinalizedL2 := { Hash := 0, Number := 0 },
    SafeL2 := { Hash := 0, Number := safeNumber },
    UnsafeL2 := { Hash := 0, Number := unsafeNumber } }

/-- Replica 1 has its unsafe head at 11, every other replica at 10. -/
def replicaOneAhead : Nat → Except String SyncStatus := fun i =>
  if i = 1 then .ok (statusAt 11 5) else .ok (statusAt 10 5)

/-- A sync status whose unsafe L2 head has the given hash and height. -/
def statusUnsafe (hash number : Nat) : SyncStatus :=
  { statusAt number 0 with UnsafeL2 := { Hash := hash, Number := number } }

/-- The snapshot of the specification's scenario: sequencer head 100, every
replica reports height 99 with the sequencer's hash at 99. -/
def snapConsistent : Snapshot :=
  { seqEthCl := seqAt100, getSyncStat := fun _ => .ok (statusUnsafe 9 99) }

/-- A sequencer whose chain holds the blocks of heights 0 to `headNumber`, the
block at height `k` having hash `k + 1`; a number outside this range is not
served. -/
def seqChain (headNumber : Nat) : BlockByNumber := fun number =>
  match number with
  | none => .ok { NumberU64 := headNumber, Hash := headNumber + 1 }
  | some k =>
    if 0 ≤ k ∧ k ≤ (headNumber : Int) then
      .ok { NumberU64 := k.toNat, Hash := k.toNat + 1 }
    else
      .error "not found"

/-- Every replica reports the block of height `2^63` of `seqChain`, whose hash
is `2^63 + 1`. -/
def replicasAtTwoPow63 : Nat → Except String SyncStatus :=
  fun _ => .ok (statusUnsafe 9223372036854775809 9223372036854775808)

/-- A snapshot in which the sequencer's chain has head `2^63` and every replica
reports that head block. -/
def snapAtTwoPow63 : Snapshot :=
  { seqEthCl := seqChain 9223372036854775808, getSyncStat := replicasAtTwoPow63 }

/-- A tick of the load generator in which nothing fails. -/
def loadEnvOk : LoadEnv :=
  { nonceAt := .ok 0, signTransaction := fun _ => none,
    sendTransaction := fun _ => none, waitReceiptOK := fun _ => none }

/-- A tick of the load generator in which `NonceAt` fails. -/
def loadEnvNonceFails : LoadEnv :=
  { nonceAt := .error "connection refused", signTransaction := fun _ => none,
    sendTransaction := fun _ => none, waitReceiptOK := fun _ => none }

/-- A snapshot with sequencer head 100 in which every replica reports height 95
with hash 7, while the sequencer's block 95 has hash 4. -/
def snapDiverged : Snapshot :=
  { seqEthCl := seqAt100, getSyncStat := fun _ => .ok (statusUnsafe 7 95) }

/-- An execution: a clean checker tick, a failing load generator tick, a checker
tick that finds a divergence, then the controller receives from `errCh`. -/
def failingTrace : List Event :=
  [.checkerTick snapConsistent, .loadTick loadEnvNonceFails, .checkerTick snapDiverged, .recv]

/-- An execution: a clean tick of each goroutine, the controller's timer fires,
then the load generator fails and the checker finds a divergence. -/
def timerTrace : List Event :=
  [.checkerTick snapConsistent, .loadTick loadEnvOk, .timer,
   .loadTick loadEnvNonceFails, .checkerTick snapDiverged]

/-- The state at the end of `timerTrace`. -/
def timerTraceEnd : RunState :=
  { errCh := [.transport "connection refused", .diverged 1 95 4 7],
    sent := [(.loadGen, .transport "connection refused"), (.checker, .diverged 1 95 4 7)],
    loadGen := .done, checker := .done, loadTicks := 2, checkerTicks := 2,
    cancelled := true, controllerDone := true,
    outcomes := [.success] }

/-- The state at the end of `failingTrace`. -/
def failingTraceEnd : RunState :=
  { errCh := [.diverged 1 95 4 7],
    sent := [(.loadGen, .transport "connection refused"), (.checker, .diverged 1 95 4 7)],
    loadGen := .done, checker := .done, loadTicks := 1, checkerTicks := 2,
    cancelled := true, controllerDone := true,
    outcomes := [.failure (.transport "connection refused")] }

/-! ## Facts on the machine integers -/

theorem wrapInt64_of_range (z : Int) (h1 : -(2 ^ 63) ≤ z) (h2 : z < 2 ^ 63) :
    wrapInt64 z = z := by
  unfold wrapInt64
  omega

theorem intOfUint64_small (u : Nat) (h : u < 2 ^ 63) : intOfUint64 u = (u : Int) := by
  unfold intOfUint64 wrapInt64
  omega

theorem intSub_intOfUint64 (a b : Nat) :
    intSub (intOfUint64 a) (intOfUint64 b) = wrapInt64 ((a : Int) - (b : Int)) := by
  unfold intSub intOfUint64 wrapInt64
  omega

/-- The lag test of `checkCanon` compares the 64-bit reading of the exact
difference of the two heights with `maxReplicaLag`. -/
theorem checkCanon_lag_iff (seqEthCl : BlockByNumber) (i : Int) (head : Nat) (id : BlockID) :
    isLagResult (checkCanon seqEthCl i head id) = true ↔
      wrapInt64 ((head : Int) - (id.Number : Int)) > maxReplicaLag := by
  unfold checkCanon
  rw [intSub_intOfUint64]
  by_cases h : wrapInt64 ((head : Int) - (id.Number : Int)) > maxReplicaLag
  · simp [h, isLagResult, HarnessError.isLag]
  · simp only [h, if_false, iff_false]
    cases seqEthCl (some (intOfUint64 id.Number)) with
    | error e => simp [isLagResult, HarnessError.isLag]
    | ok bl =>
      by_cases hh : bl.Hash = id.Hash <;> simp [hh, isLagResult, HarnessError.isLag]

/-- With heights below `2^63` and an exact difference above `maxReplicaLag`,
`checkCanon` returns the lag error. -/
theorem checkCanon_of_lag (seqEthCl : BlockByNumber) (i : Int) (head : Nat) (id : BlockID)
    (hhead : head < 2 ^ 63) (hid : id.Number < 2 ^ 63)
    (hgt : (head : Int) - (id.Number : Int) > 5) :
    checkCanon seqEthCl i head id = some (.tooFarBehind i head id.Number) := by
  have hw : wrapInt64 ((head : Int) - (id.Number : Int)) = (head : Int) - (id.Number : Int) := by
    apply wrapInt64_of_range <;> omega
  unfold checkCanon
  rw [intSub_intOfUint64, hw]
  simp [maxReplicaLag, hgt]

/-! ## Claims on `checkCanon` -/

/-- C1: lag check of `checkCanon` with `maxReplicaLag = 5`.  For heights below
`2^63`, `checkCanon` returns the lag error exactly when `head - id.Number > 5`
as integers, and the error is then the one naming `i`, `head` and `id.Number`;
a difference of exactly 5 gives no lag error, and head 50 with replica height
44 gives it. -/
theorem checkCanon_lag_check (seqEthCl : BlockByNumber) (i : Int) (head : Nat) (id : BlockID)
    (hhead : head < 2 ^ 63) (hid : id.Number < 2 ^ 63) :
    maxReplicaLag = 5 ∧
    (isLagResult (checkCanon seqEthCl i head id) = true ↔ (head : Int) - (id.Number : Int) > 5) ∧
    ((head : Int) - (id.Number : Int) > 5 →
      checkCanon seqEthCl i head id = some (.tooFarBehind i head id.Number)) ∧
    ((head : Int) - (id.Number : Int) = 5 → isLagResult (checkCanon seqEthCl i head id) = false) ∧
    (∀ hash : Nat, checkCanon seqEthCl i 50 { Hash := hash, Number := 44 }
      = some (.tooFarBehind i 50 44)) := by
  have hw : wrapInt64 ((head : Int) - (id.Number : Int)) = (head : Int) - (id.Number : Int) := by
    apply wrapInt64_of_range <;> omega
  have hiff := checkCanon_lag_iff seqEthCl i head id
  rw [hw] at hiff
  refine ⟨rfl, ?_, ?_, ?_, ?_⟩
  · simpa [maxReplicaLag] using hiff
  · exact checkCanon_of_lag seqEthCl i head id hhead hid
  · intro heq
    cases hres : isLagResult (checkCanon seqEthCl i head id) with
    | false => rfl
    | true =>
      have := hiff.mp hres
      simp [maxReplicaLag] at this
      omega
  · intro hash
    exact checkCanon_of_lag seqEthCl i 50 { Hash := hash, Number := 44 }
      (by norm_num) (by norm_num) (by norm_num)

/-- Witness of C1: head 57 and replica height 52, a difference of exactly 5. -/
theorem checkCanon_lag_check_witness :
    (57 : Nat) < 2 ^ 63 ∧ (52 : Nat) < 2 ^ 63 ∧
    isLagResult (checkCanon seqAt100 1 57 { Hash := 0, Number := 52 }) = false :=
  ⟨by norm_num, by norm_num,
    (checkCanon_lag_check seqAt100 1 57 { Hash := 0, Number := 52 }
      (by norm_num) (by norm_num)).2.2.2.1 (by norm_num)⟩

/-- C2 as stated fails at the scenario of the specification: sequencer head 100,
replica 2 reports height 94 with hash 7 while the sequencer's block 94 exists
with hash 3.  The difference 100 - 94 = 6 exceeds `maxReplicaLag`, the lag test
comes first, and the error returned names no hash. -/
theorem checkCanon_hash_claim_fails :
    seqAt100 (some 94) = .ok { NumberU64 := 94, Hash := 3 } ∧ (3 : Nat) ≠ 7 ∧
    checkCanon seqAt100 2 100 { Hash := 7, Number := 94 } = some (.tooFarBehind 2 100 94) ∧
    ¬ ∃ e, checkCanon seqAt100 2 100 { Hash := 7, Number := 94 } = some e ∧
        e.replica = some 2 ∧ 94 ∈ e.heights ∧ 3 ∈ e.hashes ∧ 7 ∈ e.hashes := by
  have hres : checkCanon seqAt100 2 100 { Hash := 7, Number := 94 }
      = some (.tooFarBehind 2 100 94) := by decide
  refine ⟨rfl, by decide, hres, ?_⟩
  rintro ⟨e, he, -, -, h3, -⟩
  rw [hres] at he
  cases he
  simp [HarnessError.hashes] at h3

/-- C2, amended: when the replica's height `H = id.Number` is below `2^63`, the
lag test does not fire (`head - H ≤ 5`), the sequencer's block at height `H`
exists and its hash differs from the replica's, `checkCanon` returns the
divergence error, which names `H`, the replica index `i`, the sequencer's hash
and the replica's hash. -/
theorem checkCanon_hash_mismatch (seqEthCl : BlockByNumber) (i : Int) (head : Nat)
    (id : BlockID) (bl : Block)
    (hid : id.Number < 2 ^ 63)
    (hlag : (head : Int) - (id.Number : Int) ≤ maxReplicaLag)
    (hbl : seqEthCl (some (id.Number : Int)) = .ok bl)
    (hne : bl.Hash ≠ id.Hash) :
    ∃ e, checkCanon seqEthCl i head id = some e ∧
      e = .diverged i id.Number bl.Hash id.Hash ∧
      e.replica = some i ∧ e.heights = [id.Number] ∧ e.hashes = [bl.Hash, id.Hash] := by
  have hlag5 : (head : Int) - (id.Number : Int) ≤ 5 := hlag
  have hw : wrapInt64 ((head : Int) - (id.Number : Int)) = (head : Int) - (id.Number : Int) := by
    apply wrapInt64_of_range <;> omega
  refine ⟨.diverged i id.Number bl.Hash id.Hash, ?_, rfl, rfl, rfl, rfl⟩
  unfold checkCanon
  rw [intSub_intOfUint64, hw, intOfUint64_small _ hid, hbl]
  have hnot : ¬ ((head : Int) - (id.Number : Int) > maxReplicaLag) := by
    simp only [maxReplicaLag]
    omega
  simp [hnot, hne]

/-- Witness of C2 amended: sequencer head 100, replica 2 reports height 95 with
hash 7 while the sequencer's block 95 has hash 4. -/
theorem checkCanon_hash_mismatch_witness :
    ∃ e, checkCanon seqAt100 2 100 { Hash := 7, Number := 95 } = some e ∧
      e = .diverged 2 95 4 7 ∧
      e.replica = some 2 ∧ e.heights = [95] ∧ e.hashes = [4, 7] :=
  checkCanon_hash_mismatch seqAt100 2 100 { Hash := 7, Number := 95 }
    { NumberU64 := 95, Hash := 4 } (by norm_num) (by decide) rfl (by decide)

/-- C3 fails on the code: with sequencer head 0 and a replica at height
`2^63 + 10`, which is ahead of the head and a `uint64` value, `int(id.Number)`
is negative, the difference is `2^63 - 10`, and `checkCanon` returns the lag
error, whatever the sequencer holds. -/
theorem checkCanon_ahead_reported_lagging :
    (0 : Nat) ≤ 9223372036854775818 ∧ 9223372036854775818 < 2 ^ 64 ∧
    intSub (intOfUint64 0) (intOfUint64 9223372036854775818) = 9223372036854775798 ∧
    ∀ (seqEthCl : BlockByNumber) (i : Int) (hash : Nat),
      checkCanon seqEthCl i 0 { Hash := hash, Number := 9223372036854775818 }
        = some (.tooFarBehind i 0 9223372036854775818) := by
  refine ⟨by norm_num, by norm_num, by decide, ?_⟩
  intro seqEthCl i hash
  have h : intSub (intOfUint64 0) (intOfUint64 9223372036854775818) > maxReplicaLag := by
    decide
  unfold checkCanon
  exact if_pos h

/-! ## Claims on `waitLoop` -/

/-- The replica loop of `waitLoop` ends with `ready` true exactly when every
replica answers and its `uint64` gap is below 2. -/
theorem waitReplicas_converged_iff (seqHead : SyncStatus)
    (repRollupCl : Nat → Except String SyncStatus) (l : List Nat) :
    (waitReplicas seqHead repRollupCl l).outcome = .converged ↔
      ∀ i ∈ l, ∃ st, repRollupCl i = .ok st ∧
        uint64Sub seqHead.UnsafeL2.Number st.UnsafeL2.Number < 2 := by
  induction l with
  | nil => simp [waitReplicas]
  | cons i is ih =>
    unfold waitReplicas
    cases hrep : repRollupCl i with
    | error e => simp [hrep]
    | ok repHead =>
      by_cases hgap : uint64Sub seqHead.UnsafeL2.Number repHead.UnsafeL2.Number ≥ 2
      · simp only [hgap, if_true, List.mem_cons, forall_eq_or_imp, hrep]
        constructor
        · intro h
          cases h
        · rintro ⟨⟨st, hst, hlt⟩, -⟩
          cases hst
          omega
      · simp only [hgap, if_false, List.mem_cons, forall_eq_or_imp, hrep, ih]
        constructor
        · intro h
          exact ⟨⟨repHead, rfl, by omega⟩, h⟩
        · rintro ⟨-, h⟩
          exact h

/-- C5 fails on the code: the sequencer's unsafe head is 10 and its safe head 5,
replica 1 is at 11 and replica 2 at 10, so both integer gaps (-1 and 0) are
below 2; the `uint64` subtraction `10 - 11` wraps to `2^64 - 1`, replica 1 is
found not ready and the tick keeps polling. -/
theorem waitTick_replica_ahead_keeps_polling :
    (statusAt 10 5).UnsafeL2.Number ≠ (statusAt 10 5).SafeL2.Number ∧
    replicaOneAhead 1 = .ok (statusAt 11 5) ∧ replicaOneAhead 2 = .ok (statusAt 10 5) ∧
    ((statusAt 10 5).UnsafeL2.Number : Int) - ((statusAt 11 5).UnsafeL2.Number : Int) < 2 ∧
    ((statusAt 10 5).UnsafeL2.Number : Int) - ((statusAt 10 5).UnsafeL2.Number : Int) < 2 ∧
    uint64Sub 10 11 = 18446744073709551615 ∧
    waitTick replicaCount (.ok (statusAt 10 5)) replicaOneAhead
      = { outcome := .polling, queried := [1] } := by
  refine ⟨by decide, rfl, rfl, by decide, by decide, by decide, by decide⟩

/-- C6: when the sequencer's unsafe and safe L2 heads have the same height, the
tick of `waitLoop` keeps polling and requests the status of no replica,
whatever the replicas would answer and whatever the replica count. -/
theorem waitTick_inconclusive (n : Nat) (seqHead : SyncStatus)
    (repRollupCl : Nat → Except String SyncStatus)
    (h : seqHead.UnsafeL2.Number = seqHead.SafeL2.Number) :
    waitTick n (.ok seqHead) repRollupCl = { outcome := .polling, queried := [] } ∧
    (waitTick n (.ok seqHead) repRollupCl).outcome ≠ .converged := by
  have h1 : waitTick n (.ok seqHead) repRollupCl = { outcome := .polling, queried := [] } := by
    simp [waitTick, h]
  refine ⟨h1, ?_⟩
  rw [h1]
  decide

/-- Witness of C6: the sequencer and both replicas all stand at height 7. -/
theorem waitTick_inconclusive_witness :
    (statusAt 7 7).UnsafeL2.Number = (statusAt 7 7).SafeL2.Number ∧
    waitTick 2 (.ok (statusAt 7 7)) (fun _ => .ok (statusAt 7 7))
      = { outcome := .polling, queried := [] } :=
  ⟨rfl, (waitTick_inconclusive 2 (statusAt 7 7) (fun _ => .ok (statusAt 7 7)) rfl).1⟩

/-! ## Claim on `requireBetween` -/

/-- C10: `requireBetween(t, x, rg)` does not depend on `x`: each of its two
conditions holds exactly when `rg > 0`, so it passes exactly when `rg > 0`;
with `rg = 0.001 ether` the balance check of `simpleWithdrawalTest` passes for
every pair of balances. -/
theorem requireBetween_ignores_x :
    (∀ x rg : Int, requireBetweenChecks x rg = [decide (rg > 0), decide (rg > 0)]) ∧
    (∀ x rg : Int, requireBetween x rg = true ↔ rg > 0) ∧
    (∀ x y rg : Int, requireBetween x rg = requireBetween y rg) ∧
    (∀ startBalanceL1 endBalanceL1 : Int,
      withdrawalBalanceCheck startBalanceL1 endBalanceL1 = true) := by
  have hchecks : ∀ x rg : Int,
      requireBetweenChecks x rg = [decide (rg > 0), decide (rg > 0)] := by
    intro x rg
    unfold requireBetweenChecks bigCmp
    have e1 : ((if x < x + rg then (-1 : Int) else if x = x + rg then 0 else 1) = -1)
        ↔ rg > 0 := by
      split_ifs <;> constructor <;> intro h <;> first | omega | exact h.elim
    have e2 : ((if x < x + -rg then (-1 : Int) else if x = x + -rg then 0 else 1) = 1)
        ↔ rg > 0 := by
      split_ifs <;> constructor <;> intro h <;> first | omega | exact h.elim
    simp only [e1, e2]
  have hiff : ∀ x rg : Int, requireBetween x rg = true ↔ rg > 0 := by
    intro x rg
    unfold requireBetween
    rw [hchecks]
    simp
  refine ⟨hchecks, hiff, ?_, ?_⟩
  · intro x y rg
    unfold requireBetween
    rw [hchecks, hchecks]
  · intro a b
    unfold withdrawalBalanceCheck
    exact (hiff _ _).mpr (by unfold milliEther; norm_num)

/-! ## Claim on the consistency checker -/

/-- With a replica height below `2^63` at most `maxReplicaLag` behind the head
and a sequencer block of the same hash at that height, `checkCanon` returns
no error. -/
theorem checkCanon_consistent (seqEthCl : BlockByNumber) (i : Int) (head : Nat)
    (id : BlockID) (bl : Block)
    (hid : id.Number < 2 ^ 63)
    (hlag : (head : Int) - (id.Number : Int) ≤ 5)
    (hbl : seqEthCl (some (id.Number : Int)) = .ok bl)
    (heq : bl.Hash = id.Hash) :
    checkCanon seqEthCl i head id = none := by
  have hw : wrapInt64 ((head : Int) - (id.Number : Int)) = (head : Int) - (id.Number : Int) := by
    apply wrapInt64_of_range <;> omega
  unfold checkCanon
  rw [intSub_intOfUint64, hw, intOfUint64_small _ hid, hbl]
  have hnot : ¬ ((head : Int) - (id.Number : Int) > maxReplicaLag) := by
    simp only [maxReplicaLag]
    omega
  simp [hnot, heq]

/-- The replica loop of the checker sends nothing when every visited replica is
consistent with the sequencer. -/
theorem checkReplicas_consistent (snap : Snapshot) (head : Block) (l : List Nat)
    (hrep : ∀ i ∈ l, ∃ st bl, snap.getSyncStat i = .ok st ∧
      st.UnsafeL2.Number < 2 ^ 63 ∧
      (head.NumberU64 : Int) - (st.UnsafeL2.Number : Int) ≤ 5 ∧
      snap.seqEthCl (some (st.UnsafeL2.Number : Int)) = .ok bl ∧
      bl.Hash = st.UnsafeL2.Hash) :
    checkReplicas snap head l = none := by
  induction l with
  | nil => rfl
  | cons i is ih =>
    obtain ⟨st, bl, hst, hlt, hlag, hbl, heq⟩ := hrep i (List.mem_cons_self i is)
    have hc : checkCanon snap.seqEthCl (i : Int) head.NumberU64 st.UnsafeL2.ID = none :=
      checkCanon_consistent snap.seqEthCl (i : Int) head.NumberU64 st.UnsafeL2.ID bl
        hlt hlag hbl heq
    have hone : checkReplica snap head i = none := by
      unfold checkReplica
      rw [hst]
      exact hc
    have ih2 := ih (fun j hj => hrep j (List.mem_cons_of_mem i hj))
    simp only [checkReplicas, hone, ih2]

/-- C4 fails on the code: the sequencer's chain has head `2^63` and both replicas
report that head block with the sequencer's hash, so no replica is behind and
the sequencer's block at the reported height exists with the same hash.  The
lag test passes, `int64(id.Number)` is `-2^63`, the sequencer is asked for a
block it does not have, and the tick sends the error that the sequencer does
not have the block at height `2^63`. -/
theorem checkerTick_false_positive_at_two_pow_63 :
    snapAtTwoPow63.seqEthCl none
      = .ok { NumberU64 := 9223372036854775808, Hash := 9223372036854775809 } ∧
    (∀ i, 1 ≤ i → i ≤ replicaCount →
      snapAtTwoPow63.getSyncStat i
        = .ok (statusUnsafe 9223372036854775809 9223372036854775808) ∧
      ((9223372036854775808 : Nat) : Int)
        - ((statusUnsafe 9223372036854775809 9223372036854775808).UnsafeL2.Number : Int)
        ≤ maxReplicaLag ∧
      snapAtTwoPow63.seqEthCl
        (some ((statusUnsafe 9223372036854775809 9223372036854775808).UnsafeL2.Number : Int))
        = .ok { NumberU64 := 9223372036854775808, Hash := 9223372036854775809 } ∧
      (9223372036854775809 : Nat)
        = (statusUnsafe 9223372036854775809 9223372036854775808).UnsafeL2.Hash) ∧
    intOfUint64 9223372036854775808 = -9223372036854775808 ∧
    snapAtTwoPow63.seqEthCl (some (-9223372036854775808)) = .error "not found" ∧
    checkCanon snapAtTwoPow63.seqEthCl 1 9223372036854775808
        { Hash := 9223372036854775809, Number := 9223372036854775808 }
      = some (.missingBlock 1 9223372036854775808) ∧
    checkerTick replicaCount snapAtTwoPow63 = some (.missingBlock 1 9223372036854775808) := by
  refine ⟨rfl, ?_, by decide, rfl, by decide, by decide⟩
  intro i _ _
  exact ⟨rfl, by decide, rfl, rfl⟩

/-- No false positive below `2^63`: for every replica count `n` and every
snapshot in which the sequencer head is served and every replica `1..n`
reports a height below `2^63`, at most `maxReplicaLag` behind the head, at
which the sequencer's block exists with the same hash, one tick of the checker
sends no error; two ticks on the same snapshot send no error either, and they
leave the state of the concurrent phase unchanged but for the tick count. -/
theorem checkerTick_no_false_positive (n : Nat) (snap : Snapshot) (head : Block)
    (hhead : snap.seqEthCl none = .ok head)
    (hrep : ∀ i, 1 ≤ i → i ≤ n → ∃ st bl, snap.getSyncStat i = .ok st ∧
      st.UnsafeL2.Number < 2 ^ 63 ∧
      (head.NumberU64 : Int) - (st.UnsafeL2.Number : Int) ≤ maxReplicaLag ∧
      snap.seqEthCl (some (st.UnsafeL2.Number : Int)) = .ok bl ∧
      bl.Hash = st.UnsafeL2.Hash) :
    checkerTick n snap = none ∧
    checkerRun n [snap, snap] = none ∧
    run n [.checkerTick snap, .checkerTick snap] RunState.init
      = some { RunState.init with checkerTicks := 2 } := by
  have htick : checkerTick n snap = none := by
    unfold checkerTick
    rw [hhead]
    apply checkReplicas_consistent
    intro i hi
    rw [List.mem_range'_1] at hi
    exact hrep i hi.1 (by omega)
  refine ⟨htick, ?_, ?_⟩
  · simp [checkerRun, htick]
  · simp [run, step, RunState.init, RunState.afterTick, htick]

/-- The scenario of the specification, head 100 and replicas reporting height 99
with the sequencer's hash at 99, sends no error. -/
theorem checkerTick_no_false_positive_witness :
    checkerTick 2 snapConsistent = none ∧
    checkerRun 2 [snapConsistent, snapConsistent] = none ∧
    run 2 [.checkerTick snapConsistent, .checkerTick snapConsistent] RunState.init
      = some { RunState.init with checkerTicks := 2 } :=
  checkerTick_no_false_positive 2 snapConsistent { NumberU64 := 100, Hash := 1 } rfl
    (fun _ _ _ => ⟨statusUnsafe 9 99, { NumberU64 := 99, Hash := 9 }, rfl,
      by decide, by decide, rfl, rfl⟩)

/-! ## Claim on the peering loops -/

/-- The targets visited for initiator `i` among `js`, as connect calls. -/
theorem peerInner_all_ok (connectPeer : Nat → Nat → Option String)
    (hok : ∀ i j, connectPeer i j = none) (i : Nat) (js : List Nat) :
    peerInner connectPeer i js =
      { calls := (js.filter fun j => decide (j ≠ i)).map fun j => ⟨i, j⟩, ok := true } := by
  induction js with
  | nil => rfl
  | cons j js ih =>
    by_cases hij : i = j
    · subst hij
      simp only [peerInner, if_true, ih]
      simp
    · have hji : j ≠ i := fun h => hij h.symm
      simp only [peerInner, hij, if_false, hok, ih]
      simp [hji]

/-- The outer loop issues, for every initiator of `is`, the calls of the inner
loop. -/
theorem peerOuter_all_ok (connectPeer : Nat → Nat → Option String)
    (hok : ∀ i j, connectPeer i j = none) (n : Nat) (is : List Nat) :
    peerOuter connectPeer n is =
      { calls := is.flatMap fun i =>
          ((List.range (n + 1)).filter fun j => decide (j ≠ i)).map fun j => ⟨i, j⟩,
        ok := true } := by
  induction is with
  | nil => rfl
  | cons i is ih =>
    simp only [peerOuter, peerInner_all_ok connectPeer hok, ih, if_true, List.flatMap_cons]

/-- Membership in the call list of the specification. -/
theorem mem_meshSpec (n : Nat) (c : ConnectCall) :
    c ∈ meshSpec n ↔
      1 ≤ c.initiator ∧ c.initiator ≤ n ∧ c.target ≤ n ∧ c.target ≠ c.initiator := by
  unfold meshSpec
  simp only [List.mem_flatMap, List.mem_map, List.mem_filter, List.mem_range,
    List.mem_range'_1, decide_eq_true_eq]
  constructor
  · rintro ⟨i, ⟨h1, h2⟩, j, ⟨hj, hne⟩, rfl⟩
    refine ⟨h1, ?_, ?_, hne⟩
    · show i ≤ n
      omega
    · show j ≤ n
      omega
  · rintro ⟨h1, h2, h3, h4⟩
    exact ⟨c.initiator, ⟨h1, by omega⟩, c.target, ⟨by omega, h4⟩, rfl⟩

/-- The call list of the specification has no repetition. -/
theorem nodup_meshSpec (n : Nat) : (meshSpec n).Nodup := by
  unfold meshSpec
  rw [List.nodup_flatMap]
  constructor
  · intro i _
    apply List.Nodup.map
    · intro a b hab
      exact congrArg ConnectCall.target hab
    · exact (List.nodup_range (n + 1)).filter _
  · apply List.Pairwise.imp _ (List.nodup_range' 1 n)
    intro a b hab
    simp only [Function.onFun]
    rw [List.disjoint_left]
    intro c hc1 hc2
    simp only [List.mem_map] at hc1 hc2
    obtain ⟨j1, -, rfl⟩ := hc1
    obtain ⟨j2, -, h⟩ := hc2
    exact hab (congrArg ConnectCall.initiator h).symm

/-- For an initiator `i ≤ n` the inner loop issues `n` calls. -/
theorem length_targets (n i : Nat) (hi : i ≤ n) :
    ((List.range (n + 1)).filter fun j => decide (j ≠ i)).length = n := by
  have hmem : i ∈ List.range (n + 1) := List.mem_range.mpr (by omega)
  have herase := List.Nodup.erase_eq_filter (List.nodup_range (n + 1)) i
  have hfun : (fun j => decide (j ≠ i)) = (fun j : Nat => j != i) := by
    funext j
    by_cases h : j = i <;> simp [h]
  rw [hfun, ← herase, List.length_erase_of_mem hmem, List.length_range]
  rfl

/-- The calls issued for the initiators of `is`, all at most `n`, number
`is.length * n`. -/
theorem length_flatMap_targets (n : Nat) (is : List Nat) (his : ∀ i ∈ is, i ≤ n) :
    (is.flatMap fun i =>
      ((List.range (n + 1)).filter fun j => decide (j ≠ i)).map
        fun j => (⟨i, j⟩ : ConnectCall)).length = is.length * n := by
  induction is with
  | nil => simp
  | cons i is ih =>
    rw [List.flatMap_cons, List.length_append, List.length_map,
      length_targets n i (his i (List.mem_cons_self i is)),
      ih (fun j hj => his j (List.mem_cons_of_mem i hj)), List.length_cons]
    ring

/-- C9: when every connect call succeeds, the peering loops issue exactly the
calls `(i, j)` for `i = 1..n` and `j = 0..n` with `j ≠ i`, in this order, and
no `require.NoError` fails.  Hence each ordered pair of distinct replicas is
connected exactly once, each replica connects to the sequencer exactly once,
no node connects to itself, the sequencer initiates no connection, and `n * n`
calls are issued. -/
theorem peerMesh_calls (connectPeer : Nat → Nat → Option String) (n : Nat)
    (hok : ∀ i j, connectPeer i j = none) :
    (peerMesh connectPeer n).ok = true ∧
    (peerMesh connectPeer n).calls = meshSpec n ∧
    (∀ i j, 1 ≤ i → i ≤ n → 1 ≤ j → j ≤ n → i ≠ j →
      (peerMesh connectPeer n).calls.count ⟨i, j⟩ = 1) ∧
    (∀ i, 1 ≤ i → i ≤ n → (peerMesh connectPeer n).calls.count ⟨i, 0⟩ = 1) ∧
    (∀ c ∈ (peerMesh connectPeer n).calls, c.initiator ≠ c.target) ∧
    (∀ c ∈ (peerMesh connectPeer n).calls, c.initiator ≠ 0) ∧
    (peerMesh connectPeer n).calls.length = n * n := by
  have hcalls : (peerMesh connectPeer n).calls = meshSpec n := by
    unfold peerMesh meshSpec
    rw [peerOuter_all_ok connectPeer hok]
  have hokres : (peerMesh connectPeer n).ok = true := by
    unfold peerMesh
    rw [peerOuter_all_ok connectPeer hok]
  refine ⟨hokres, hcalls, ?_, ?_, ?_, ?_, ?_⟩
  · intro i j hi1 hi2 _ hj2 hij
    rw [hcalls]
    exact List.count_eq_one_of_mem (nodup_meshSpec n)
      ((mem_meshSpec n ⟨i, j⟩).mpr ⟨hi1, hi2, hj2, fun h => hij h.symm⟩)
  · intro i hi1 hi2
    rw [hcalls]
    exact List.count_eq_one_of_mem (nodup_meshSpec n)
      ((mem_meshSpec n ⟨i, 0⟩).mpr ⟨hi1, hi2, Nat.zero_le n, by
        show (0 : Nat) ≠ i
        omega⟩)
  · intro c hc
    rw [hcalls, mem_meshSpec] at hc
    exact fun h => hc.2.2.2 h.symm
  · intro c hc
    rw [hcalls, mem_meshSpec] at hc
    omega
  · rw [hcalls]
    unfold meshSpec
    rw [length_flatMap_targets n (List.range' 1 n), List.length_range']
    intro i hi
    rw [List.mem_range'_1] at hi
    omega

/-- Witness of C9: `replicaCount = 2` and a peer client whose calls all succeed:
the calls are (1,0), (1,2), (2,0), (2,1). -/
theorem peerMesh_calls_witness :
    (peerMesh (fun _ _ => none) replicaCount).calls
      = [⟨1, 0⟩, ⟨1, 2⟩, ⟨2, 0⟩, ⟨2, 1⟩] ∧
    (peerMesh (fun _ _ => none) replicaCount).calls.length = 2 * 2 :=
  ⟨(peerMesh_calls (fun _ _ => none) replicaCount (fun _ _ => rfl)).2.1.trans (by decide),
    (peerMesh_calls (fun _ _ => none) replicaCount (fun _ _ => rfl)).2.2.2.2.2.2⟩

/-! ## Invariant of the concurrent phase -/

theorem status_setStatus (s : RunState) (t u : Task) (st : TaskStatus) :
    (s.setStatus t st).status u = if u = t then st else s.status u := by
  cases t <;> cases u <;> simp [RunState.setStatus, RunState.status]

theorem sent_setStatus (s : RunState) (t : Task) (st : TaskStatus) :
    (s.setStatus t st).sent = s.sent := by
  cases t <;> rfl

theorem errCh_setStatus (s : RunState) (t : Task) (st : TaskStatus) :
    (s.setStatus t st).errCh = s.errCh := by
  cases t <;> rfl

theorem outcomes_setStatus (s : RunState) (t : Task) (st : TaskStatus) :
    (s.setStatus t st).outcomes = s.outcomes := by
  cases t <;> rfl

theorem controllerDone_setStatus (s : RunState) (t : Task) (st : TaskStatus) :
    (s.setStatus t st).controllerDone = s.controllerDone := by
  cases t <;> rfl

theorem ticks_setStatus (s : RunState) (t u : Task) (st : TaskStatus) :
    (s.setStatus t st).ticks u = s.ticks u := by
  cases t <;> cases u <;> rfl

theorem sentBy_setStatus (s : RunState) (t u : Task) (st : TaskStatus) :
    sentBy (s.setStatus t st) u = sentBy s u := by
  unfold sentBy
  rw [sent_setStatus]

/-- Every send is by one of the two goroutines. -/
theorem sent_length (s : RunState) :
    s.sent.length = sentBy s .loadGen + sentBy s .checker := by
  unfold sentBy
  induction s.sent with
  | nil => rfl
  | cons p l ih =>
    obtain ⟨t, e⟩ := p
    cases t <;> simp [List.countP_cons, ih] <;> omega

/-- Under the invariant at most two values were sent, and the buffer has room. -/
theorem RunInv.room {s : RunState} (h : RunInv s) :
    s.sent.length ≤ 2 ∧ s.errCh.length ≤ 2 ∧ s.errCh.length < errChCap := by
  have h1 := h.sentOnce .loadGen
  have h2 := h.sentOnce .checker
  have h3 := sent_length s
  have h4 := h.buffered
  unfold errChCap
  omega

theorem RunInv.init : RunInv RunState.init where
  notBlocked := by
    intro t e
    cases t <;> simp [RunState.init, RunState.status]
  runningUnsent := by
    intro t _
    rfl
  sentOnce := by
    intro t
    simp [sentBy, RunState.init]
  buffered := by simp [RunState.init]
  waiting := by
    intro _
    exact ⟨rfl, rfl⟩
  decided := by
    intro h
    simp [RunState.init] at h

/-- With room in the buffer a send queues the value and the goroutine returns. -/
theorem send_of_room (s : RunState) (t : Task) (err : HarnessError)
    (h : s.errCh.length < errChCap) :
    s.send t err = (s.enqueue t err).setStatus t .done := by
  unfold RunState.send
  rw [if_pos h]

/-- A send by a goroutine that is in its loop keeps the invariant. -/
theorem RunInv.send {s : RunState} (h : RunInv s) (t : Task) (err : HarnessError)
    (hrun : s.status t = .running) : RunInv (s.send t err) := by
  rw [send_of_room s t err h.room.2.2]
  have hsent : ∀ u, sentBy ((s.enqueue t err).setStatus t .done) u
      = sentBy s u + if t = u then 1 else 0 := by
    intro u
    rw [sentBy_setStatus]
    unfold sentBy RunState.enqueue
    simp only [List.countP_append, List.countP_cons, List.countP_nil]
    simp
  have hstatus : ∀ u, ((s.enqueue t err).setStatus t .done).status u
      = if u = t then .done else s.status u := by
    intro u
    rw [status_setStatus]
    rfl
  constructor
  · intro u e
    rw [hstatus]
    by_cases hu : u = t
    · simp [hu]
    · simp only [hu, if_false]
      exact h.notBlocked u e
  · intro u hu
    rw [hstatus] at hu
    rw [hsent]
    by_cases hut : u = t
    · simp [hut] at hu
    · simp only [hut, if_false] at hu
      have hne : ¬ t = u := fun e => hut e.symm
      simp only [hne, if_false, Nat.add_zero]
      exact h.runningUnsent u hu
  · intro u
    rw [hsent]
    by_cases hut : t = u
    · subst hut
      rw [h.runningUnsent t hrun]
      simp
    · simp only [hut, if_false, Nat.add_zero]
      exact h.sentOnce u
  · rw [errCh_setStatus, sent_setStatus]
    have := h.buffered
    simp only [RunState.enqueue, List.length_append, List.length_singleton]
    omega
  · intro hc
    rw [controllerDone_setStatus] at hc
    obtain ⟨h1, h2⟩ := h.waiting hc
    rw [outcomes_setStatus, errCh_setStatus]
    refine ⟨h1, ?_⟩
    unfold RunState.sentValues
    rw [sent_setStatus]
    unfold RunState.sentValues at h2
    simp [RunState.enqueue, h2]
  · intro hc
    rw [controllerDone_setStatus] at hc
    rw [outcomes_setStatus]
    unfold RunState.sentValues
    rw [sent_setStatus]
    rcases h.decided hc with h1 | ⟨e, rest, h1, h2⟩
    · exact Or.inl h1
    · refine Or.inr ⟨e, rest ++ [err], h1, ?_⟩
      unfold RunState.sentValues at h2
      simp [RunState.enqueue, h2]

/-- The end of a tick of a goroutine that is in its loop keeps the invariant. -/
theorem RunInv.afterTick {s : RunState} (h : RunInv s) (t : Task)
    (result : Option HarnessError) (hrun : s.status t = .running) :
    RunInv (s.afterTick t result) := by
  cases result with
  | none => exact h
  | some err => exact h.send t err hrun

/-- A goroutine that returns on `ctx.Done()` keeps the invariant. -/
theorem RunInv.setDone {s : RunState} (h : RunInv s) (t : Task) :
    RunInv (s.setStatus t .done) := by
  constructor
  · intro u e
    rw [status_setStatus]
    by_cases hu : u = t
    · simp [hu]
    · simp only [hu, if_false]
      exact h.notBlocked u e
  · intro u hu
    rw [status_setStatus] at hu
    rw [sentBy_setStatus]
    by_cases hut : u = t
    · simp [hut] at hu
    · simp only [hut, if_false] at hu
      exact h.runningUnsent u hu
  · intro u
    rw [sentBy_setStatus]
    exact h.sentOnce u
  · rw [errCh_setStatus, sent_setStatus]
    exact h.buffered
  · intro hc
    rw [controllerDone_setStatus] at hc
    rw [outcomes_setStatus, errCh_setStatus]
    unfold RunState.sentValues
    rw [sent_setStatus]
    exact h.waiting hc
  · intro hc
    rw [controllerDone_setStatus] at hc
    rw [outcomes_setStatus]
    unfold RunState.sentValues
    rw [sent_setStatus]
    exact h.decided hc

/-- Every step keeps the invariant. -/
theorem RunInv.step {s s1 : RunState} (h : RunInv s) (n : Nat) (ev : Event)
    (hstep : step n ev s = some s1) : RunInv s1 := by
  cases ev with
  | loadTick env =>
    by_cases hrun : s.loadGen = .running
    · simp only [Hive.step] at hstep
      rw [if_pos hrun] at hstep
      have hs := Option.some.inj hstep
      subst hs
      have h1 : RunInv { s with loadTicks := s.loadTicks + 1 } :=
        ⟨h.notBlocked, h.runningUnsent, h.sentOnce, h.buffered, h.waiting, h.decided⟩
      exact h1.afterTick .loadGen (loadTick env) hrun
    · simp [Hive.step, hrun] at hstep
  | checkerTick snap =>
    by_cases hrun : s.checker = .running
    · simp only [Hive.step] at hstep
      rw [if_pos hrun] at hstep
      have hs := Option.some.inj hstep
      subst hs
      have h1 : RunInv { s with checkerTicks := s.checkerTicks + 1 } :=
        ⟨h.notBlocked, h.runningUnsent, h.sentOnce, h.buffered, h.waiting, h.decided⟩
      exact h1.afterTick .checker (checkerTick n snap) hrun
    · simp [Hive.step, hrun] at hstep
  | observeDone t =>
    by_cases hc : s.status t = .running ∧ s.cancelled = true
    · simp only [Hive.step, hc, and_self, if_true, Option.some.injEq] at hstep
      subst hstep
      exact h.setDone t
    · simp [Hive.step, hc] at hstep
  | resumeSend t =>
    cases hst : s.status t with
    | running => simp [Hive.step, hst] at hstep
    | done => simp [Hive.step, hst] at hstep
    | blocked err => exact absurd hst (h.notBlocked t err)
  | deadline =>
    simp only [Hive.step, Option.some.injEq] at hstep
    subst hstep
    exact ⟨h.notBlocked, h.runningUnsent, h.sentOnce, h.buffered, h.waiting, h.decided⟩
  | timer =>
    by_cases hc : s.controllerDone = false
    · simp only [Hive.step, hc, if_true, Option.some.injEq] at hstep
      subst hstep
      refine ⟨h.notBlocked, h.runningUnsent, h.sentOnce, h.buffered, ?_, ?_⟩
      · intro hfalse
        cases hfalse
      · intro _
        left
        show s.outcomes ++ [Outcome.success] = [Outcome.success]
        rw [(h.waiting hc).1]
        rfl
    · simp [Hive.step, hc] at hstep
  | recv =>
    by_cases hc : s.controllerDone = false
    · cases hch : s.errCh with
      | nil => simp [Hive.step, hc, hch] at hstep
      | cons err rest =>
        simp only [Hive.step, hc, hch, if_true, Option.some.injEq] at hstep
        subst hstep
        obtain ⟨hout, hbuf⟩ := h.waiting hc
        refine ⟨h.notBlocked, h.runningUnsent, h.sentOnce, ?_, ?_, ?_⟩
        · have := h.buffered
          rw [hch] at this
          simp only [List.length_cons] at this
          show rest.length ≤ s.sent.length
          omega
        · intro hfalse
          cases hfalse
        · intro _
          right
          refine ⟨err, rest, ?_, ?_⟩
          · show s.outcomes ++ [Outcome.failure err] = [Outcome.failure err]
            rw [hout]
            rfl
          · show s.sentValues = err :: rest
            rw [← hbuf, hch]
    · simp [Hive.step, hc] at hstep

/-- Every execution keeps the invariant. -/
theorem RunInv.run {s s1 : RunState} (h : RunInv s) (n : Nat) (evs : List Event)
    (hrun : run n evs s = some s1) : RunInv s1 := by
  induction evs generalizing s with
  | nil =>
    simp only [Hive.run, Option.some.injEq] at hrun
    subst hrun
    exact h
  | cons ev evs ih =>
    cases hstep : Hive.step n ev s with
    | none => simp [Hive.run, hstep] at hrun
    | some s2 =>
      simp only [Hive.run, hstep] at hrun
      exact ih (h.step n ev hstep) hrun

/-- The end of a tick of goroutine `t` does not touch the controller's record,
nor the status, tick count and sends of the other goroutine. -/
theorem afterTick_frame (s : RunState) (t : Task) (result : Option HarnessError) :
    (s.afterTick t result).outcomes = s.outcomes ∧
    (s.afterTick t result).controllerDone = s.controllerDone ∧
    ∀ u, u ≠ t → (s.afterTick t result).status u = s.status u ∧
      (s.afterTick t result).ticks u = s.ticks u ∧
      sentBy (s.afterTick t result) u = sentBy s u := by
  cases result with
  | none => exact ⟨rfl, rfl, fun _ _ => ⟨rfl, rfl, rfl⟩⟩
  | some err =>
    show (s.send t err).outcomes = s.outcomes ∧ (s.send t err).controllerDone = s.controllerDone ∧
      ∀ u, u ≠ t → (s.send t err).status u = s.status u ∧ (s.send t err).ticks u = s.ticks u ∧
        sentBy (s.send t err) u = sentBy s u
    unfold RunState.send
    by_cases hroom : s.errCh.length < errChCap
    · rw [if_pos hroom]
      refine ⟨?_, ?_, ?_⟩
      · rw [outcomes_setStatus]
        rfl
      · rw [controllerDone_setStatus]
        rfl
      · intro u hu
        rw [status_setStatus, ticks_setStatus, sentBy_setStatus, if_neg hu]
        refine ⟨?_, ?_, ?_⟩
        · cases u <;> rfl
        · cases u <;> rfl
        · have hne : ¬ t = u := fun e => hu e.symm
          unfold sentBy RunState.enqueue
          simp [List.countP_append, List.countP_cons, hne]
    · rw [if_neg hroom]
      refine ⟨outcomes_setStatus _ _ _, controllerDone_setStatus _ _ _, ?_⟩
      intro u hu
      rw [status_setStatus, ticks_setStatus, sentBy_setStatus, if_neg hu]
      exact ⟨rfl, rfl, rfl⟩

/-- After the controller has decided, no step changes its record. -/
theorem step_keeps_decision {s s1 : RunState} (n : Nat) (ev : Event)
    (hdone : s.controllerDone = true) (hstep : step n ev s = some s1) :
    s1.outcomes = s.outcomes ∧ s1.controllerDone = true := by
  cases ev with
  | loadTick env =>
    by_cases hrun : s.loadGen = .running
    · simp only [Hive.step] at hstep
      rw [if_pos hrun] at hstep
      have hs := Option.some.inj hstep
      subst hs
      have hf := afterTick_frame { s with loadTicks := s.loadTicks + 1 } .loadGen (loadTick env)
      exact ⟨hf.1, hf.2.1.trans hdone⟩
    · simp [Hive.step, hrun] at hstep
  | checkerTick snap =>
    by_cases hrun : s.checker = .running
    · simp only [Hive.step] at hstep
      rw [if_pos hrun] at hstep
      have hs := Option.some.inj hstep
      subst hs
      have hf := afterTick_frame { s with checkerTicks := s.checkerTicks + 1 } .checker
        (checkerTick n snap)
      exact ⟨hf.1, hf.2.1.trans hdone⟩
    · simp [Hive.step, hrun] at hstep
  | observeDone t =>
    by_cases hc : s.status t = .running ∧ s.cancelled = true
    · simp only [Hive.step] at hstep
      rw [if_pos hc] at hstep
      have hs := Option.some.inj hstep
      subst hs
      exact ⟨outcomes_setStatus _ _ _, (controllerDone_setStatus _ _ _).trans hdone⟩
    · simp [Hive.step, hc] at hstep
  | resumeSend t =>
    cases hst : s.status t with
    | running => simp [Hive.step, hst] at hstep
    | done => simp [Hive.step, hst] at hstep
    | blocked err =>
      by_cases hroom : s.errCh.length < errChCap
      · simp only [Hive.step, hst] at hstep
        rw [if_pos hroom] at hstep
        have hs := Option.some.inj hstep
        subst hs
        have hf := afterTick_frame s t (some err)
        exact ⟨hf.1, hf.2.1.trans hdone⟩
      · simp [Hive.step, hst, hroom] at hstep
  | deadline =>
    simp only [Hive.step, Option.some.injEq] at hstep
    subst hstep
    exact ⟨rfl, hdone⟩
  | timer => simp [Hive.step, hdone] at hstep
  | recv => simp [Hive.step, hdone] at hstep

/-- After the controller has decided, no execution changes its record. -/
theorem run_keeps_decision {s s1 : RunState} (n : Nat) (evs : List Event)
    (hdone : s.controllerDone = true) (hrun : run n evs s = some s1) :
    s1.outcomes = s.outcomes ∧ s1.controllerDone = true := by
  induction evs generalizing s with
  | nil =>
    simp only [Hive.run, Option.some.injEq] at hrun
    subst hrun
    exact ⟨rfl, hdone⟩
  | cons ev evs ih =>
    cases hstep : Hive.step n ev s with
    | none => simp [Hive.run, hstep] at hrun
    | some s2 =>
      simp only [Hive.run, hstep] at hrun
      have h2 := step_keeps_decision n ev hdone hstep
      have h3 := ih h2.2 hrun
      exact ⟨h3.1.trans h2.1, h3.2⟩

/-- A goroutine that has returned stays so: no step changes its status, its tick
count or its sends. -/
theorem step_of_done {s s1 : RunState} (n : Nat) (ev : Event) (t : Task)
    (hd : s.status t = .done) (hstep : step n ev s = some s1) :
    s1.status t = .done ∧ s1.ticks t = s.ticks t ∧ sentBy s1 t = sentBy s t := by
  cases ev with
  | loadTick env =>
    by_cases hrun : s.loadGen = .running
    · simp only [Hive.step] at hstep
      rw [if_pos hrun] at hstep
      have hs := Option.some.inj hstep
      subst hs
      have ht : t ≠ .loadGen := by
        intro e
        subst e
        rw [show s.status .loadGen = s.loadGen from rfl, hrun] at hd
        cases hd
      have hf := (afterTick_frame { s with loadTicks := s.loadTicks + 1 } .loadGen
        (loadTick env)).2.2 t ht
      refine ⟨hf.1.trans ?_, hf.2.1.trans ?_, hf.2.2.trans ?_⟩
      · cases t <;> exact hd
      · cases t <;> first | rfl | exact absurd rfl ht
      · rfl
    · simp [Hive.step, hrun] at hstep
  | checkerTick snap =>
    by_cases hrun : s.checker = .running
    · simp only [Hive.step] at hstep
      rw [if_pos hrun] at hstep
      have hs := Option.some.inj hstep
      subst hs
      have ht : t ≠ .checker := by
        intro e
        subst e
        rw [show s.status .checker = s.checker from rfl, hrun] at hd
        cases hd
      have hf := (afterTick_frame { s with checkerTicks := s.checkerTicks + 1 } .checker
        (checkerTick n snap)).2.2 t ht
      refine ⟨hf.1.trans ?_, hf.2.1.trans ?_, hf.2.2.trans ?_⟩
      · cases t <;> exact hd
      · cases t <;> first | rfl | exact absurd rfl ht
      · rfl
    · simp [Hive.step, hrun] at hstep
  | observeDone u =>
    by_cases hc : s.status u = .running ∧ s.cancelled = true
    · simp only [Hive.step] at hstep
      rw [if_pos hc] at hstep
      have hs := Option.some.inj hstep
      subst hs
      rw [status_setStatus, ticks_setStatus, sentBy_setStatus]
      refine ⟨?_, rfl, rfl⟩
      by_cases htu : t = u
      · rw [if_pos htu]
      · rw [if_neg htu]
        exact hd
    · simp [Hive.step, hc] at hstep
  | resumeSend u =>
    cases hst : s.status u with
    | running => simp [Hive.step, hst] at hstep
    | done => simp [Hive.step, hst] at hstep
    | blocked err =>
      by_cases hroom : s.errCh.length < errChCap
      · simp only [Hive.step, hst] at hstep
        rw [if_pos hroom] at hstep
        have hs := Option.some.inj hstep
        subst hs
        have ht : t ≠ u := by
          intro e
          subst e
          rw [hst] at hd
          cases hd
        have hf := (afterTick_frame s u (some err)).2.2 t ht
        exact ⟨hf.1.trans hd, hf.2.1, hf.2.2⟩
      · simp [Hive.step, hst, hroom] at hstep
  | deadline =>
    simp only [Hive.step, Option.some.injEq] at hstep
    subst hstep
    refine ⟨?_, ?_, rfl⟩
    · cases t <;> exact hd
    · cases t <;> rfl
  | timer =>
    by_cases hc : s.controllerDone = false
    · simp only [Hive.step] at hstep
      rw [if_pos hc] at hstep
      have hs := Option.some.inj hstep
      subst hs
      refine ⟨?_, ?_, rfl⟩
      · cases t <;> exact hd
      · cases t <;> rfl
    · simp [Hive.step, hc] at hstep
  | recv =>
    by_cases hc : s.controllerDone = false
    · cases hch : s.errCh with
      | nil => simp [Hive.step, hc, hch] at hstep
      | cons err rest =>
        simp only [Hive.step, hc, hch, if_true, Option.some.injEq] at hstep
        subst hstep
        refine ⟨?_, ?_, rfl⟩
        · cases t <;> exact hd
        · cases t <;> rfl
    · simp [Hive.step, hc] at hstep

/-! ## Claims on the concurrent phase -/

/-- C7: in every execution of the concurrent phase the controller records at
most one outcome, and exactly one once its `select` has returned.  While the
`select` is pending nothing is recorded; taking the timer branch then records
success and nothing else; taking the receive branch is possible exactly when
`errCh` holds a value, and it then records the failure with the value at the
head of `errCh`, which is the first value ever sent.  Once the `select` has
returned neither branch can be taken again, and no later event, in particular
no later send by a goroutine, changes the record. -/
theorem controller_single_outcome (n : Nat) (evs : List Event) (s : RunState)
    (h : run n evs RunState.init = some s) :
    s.outcomes.length ≤ 1 ∧
    (s.controllerDone = true ↔ s.outcomes.length = 1) ∧
    (s.controllerDone = false → s.outcomes = []) ∧
    (s.controllerDone = false →
      step n .timer s = some { s with controllerDone := true, cancelled := true,
                                      outcomes := [.success] }) ∧
    (s.controllerDone = false → ∀ err rest, s.errCh = err :: rest →
      step n .recv s = some { s with errCh := rest, controllerDone := true, cancelled := true,
                                     outcomes := [.failure err] } ∧
      s.sentValues.head? = some err) ∧
    (s.controllerDone = false → s.errCh = [] → step n .recv s = none) ∧
    (s.controllerDone = true → step n .timer s = none ∧ step n .recv s = none) ∧
    (∀ o ∈ s.outcomes, o = .success ∨
      ∃ e, o = .failure e ∧ s.sentValues.head? = some e) ∧
    (∀ evs1 s1, s.controllerDone = true → run n evs1 s = some s1 →
      s1.outcomes = s.outcomes ∧ s1.controllerDone = true) := by
  have hinv : RunInv s := RunInv.init.run n evs h
  have hcases : (s.controllerDone = false ∧ s.outcomes = []) ∨
      (s.controllerDone = true ∧ (s.outcomes = [.success] ∨
        ∃ e rest, s.outcomes = [.failure e] ∧ s.sentValues = e :: rest)) := by
    cases hc : s.controllerDone with
    | false => exact Or.inl ⟨rfl, (hinv.waiting hc).1⟩
    | true => exact Or.inr ⟨rfl, hinv.decided hc⟩
  refine ⟨?_, ?_, ?_, ?_, ?_, ?_, ?_, ?_, ?_⟩
  · rcases hcases with ⟨-, h1⟩ | ⟨-, h1 | ⟨e, rest, h1, -⟩⟩ <;> simp [h1]
  · rcases hcases with ⟨hc, h1⟩ | ⟨hc, h1 | ⟨e, rest, h1, -⟩⟩ <;> simp [hc, h1]
  · intro hc
    exact (hinv.waiting hc).1
  · intro hc
    simp only [step]
    rw [if_pos hc, (hinv.waiting hc).1]
    rfl
  · intro hc err rest hch
    obtain ⟨hout, hbuf⟩ := hinv.waiting hc
    constructor
    · simp only [step, hch]
      rw [if_pos hc, hout]
      rfl
    · rw [← hbuf, hch]
      rfl
  · intro hc hch
    simp [step, hc, hch]
  · intro hc
    constructor <;> simp [step, hc]
  · intro o ho
    rcases hcases with ⟨-, h0⟩ | ⟨-, h1 | ⟨e, rest, h1, h2⟩⟩
    · rw [h0] at ho
      cases ho
    · rw [h1] at ho
      simp only [List.mem_singleton] at ho
      exact Or.inl ho
    · rw [h1] at ho
      simp only [List.mem_singleton] at ho
      exact Or.inr ⟨e, ho, by rw [h2]; rfl⟩
  · intro evs1 s1 hdone hrun
    exact run_keeps_decision n evs1 hdone hrun

/-- Witness of C7.  In `failingTrace` both goroutines send an error before the
controller decides: the receive branch records the failure with the load
generator's error, the first sent, and the checker's error stays in `errCh`.
In `timerTrace` the timer fires after a clean tick of each goroutine: the
timer branch records success, and the two errors sent afterwards stay in
`errCh` without changing the record. -/
theorem controller_single_outcome_witness :
    run replicaCount failingTrace RunState.init = some failingTraceEnd ∧
    failingTraceEnd.outcomes = [.failure (.transport "connection refused")] ∧
    failingTraceEnd.errCh = [.diverged 1 95 4 7] ∧
    (failingTraceEnd.controllerDone = true ↔ failingTraceEnd.outcomes.length = 1) ∧
    run replicaCount [.checkerTick snapConsistent, .loadTick loadEnvOk] RunState.init
      = some { RunState.init with loadTicks := 1, checkerTicks := 1 } ∧
    step replicaCount .timer { RunState.init with loadTicks := 1, checkerTicks := 1 }
      = some { RunState.init with loadTicks := 1, checkerTicks := 1, controllerDone := true,
                                  cancelled := true, outcomes := [.success] } ∧
    run replicaCount timerTrace RunState.init = some timerTraceEnd ∧
    timerTraceEnd.outcomes = [.success] ∧
    timerTraceEnd.errCh = [.transport "connection refused", .diverged 1 95 4 7] ∧
    (timerTraceEnd.controllerDone = true ↔ timerTraceEnd.outcomes.length = 1) :=
  ⟨by decide, rfl, rfl,
    (controller_single_outcome replicaCount failingTrace failingTraceEnd (by decide)).2.1,
    by decide,
    (controller_single_outcome replicaCount [.checkerTick snapConsistent, .loadTick loadEnvOk]
      { RunState.init with loadTicks := 1, checkerTicks := 1 } (by decide)).2.2.2.1 rfl,
    by decide, rfl, rfl,
    (controller_single_outcome replicaCount timerTrace timerTraceEnd (by decide)).2.1⟩

/-- C8: in every reachable state of the concurrent phase each goroutine has sent
at most one value on `errCh`; a goroutine that has sent has returned, a
goroutine that has returned takes no further tick, and no step changes its
status, tick count or sends; at most 2 values were ever sent, 2 is at most the
capacity 20, the buffer has room, and no goroutine is stopped in a send. -/
theorem errCh_report_once (n : Nat) (evs : List Event) (s : RunState)
    (h : run n evs RunState.init = some s) :
    (∀ t, sentBy s t ≤ 1) ∧
    (∀ t, 1 ≤ sentBy s t → s.status t = .done) ∧
    (s.loadGen = .done → ∀ env, step n (.loadTick env) s = none) ∧
    (s.checker = .done → ∀ snap, step n (.checkerTick snap) s = none) ∧
    (∀ t ev s1, s.status t = .done → step n ev s = some s1 →
      s1.status t = .done ∧ s1.ticks t = s.ticks t ∧ sentBy s1 t = sentBy s t) ∧
    s.sent.length ≤ 2 ∧ 2 ≤ errChCap ∧ errChCap = 20 ∧
    s.errCh.length < errChCap ∧
    (∀ t e, s.status t ≠ .blocked e) := by
  have hinv : RunInv s := RunInv.init.run n evs h
  refine ⟨hinv.sentOnce, ?_, ?_, ?_, ?_, hinv.room.1, by decide, rfl, hinv.room.2.2,
    hinv.notBlocked⟩
  · intro t ht
    cases hst : s.status t with
    | running =>
      have := hinv.runningUnsent t hst
      omega
    | blocked err => exact absurd hst (hinv.notBlocked t err)
    | done => rfl
  · intro hd env
    simp [step, hd]
  · intro hd snap
    simp [step, hd]
  · intro t ev s1 hd hstep
    exact step_of_done n ev t hd hstep

/-- Witness of C8: at the end of `failingTrace` each goroutine has sent one value
and has returned. -/
theorem errCh_report_once_witness :
    run replicaCount failingTrace RunState.init = some failingTraceEnd ∧
    sentBy failingTraceEnd .loadGen = 1 ∧ sentBy failingTraceEnd .checker = 1 ∧
    failingTraceEnd.sent.length ≤ 2 ∧
    failingTraceEnd.loadGen = .done ∧ failingTraceEnd.checker = .done :=
  ⟨by decide, by decide, by decide,
    (errCh_report_once replicaCount failingTrace failingTraceEnd (by decide)).2.2.2.2.2.1,
    rfl, rfl⟩

end Hive
